import Mathlib

/-!
Verification development for the Material Icons Autocomplete extension
(`src/extension.ts`).  The catalog acquisition and caching pipeline is
shallowly embedded: file system and network effects are made explicit as
state threaded through the functions, and JavaScript truthiness on strings
is modelled faithfully.  File writes are modelled as always succeeding;
file reads on an existing file either succeed or are lumped into a single
"invalid" state together with JSON parse failures, because both raise an
exception at the same program point.
-/

set_option linter.all false

namespace MatIcons

/-- The fixed category keywords (`MATERIAL_CATEGORIES` in extension.ts). -/
def MATERIAL_CATEGORIES : List String :=
  ["action", "alert", "av", "communication", "content", "device", "editor",
   "file", "hardware", "home", "image", "maps", "navigation", "notification",
   "places", "search", "social", "toggle"]

/-- In-memory icon record: the fields of the `MaterialIcon` interface of
extension.ts, plus the dynamic `_svgPath` property (here `svgPath`) that
`loadIcons` attaches to records loaded from the local metadata cache.
Optional fields are `Option`; `JSON.stringify` drops `undefined` fields, so
serialization is the identity on this representation. -/
structure MaterialIcon where
  name : String
  category : String
  tags : Option (List String)
  description : Option String
  svgContent : Option String
  variant : Option String
  svgPath : Option String
deriving Repr, DecidableEq

/-- JavaScript truthiness of an optional string (absent and `""` are falsy). -/
def truthy : Option String → Bool
  | some s => s != ""
  | none => false

/-- JavaScript `v || dflt` on an optional string. -/
def orDefault (v : Option String) (dflt : String) : String :=
  match v with
  | some s => if s = "" then dflt else s
  | none => dflt

/-- Split a character list at every occurrence of the separator character
(structural recursion, so concrete instances reduce in the kernel). -/
def jsSplitChar (c : Char) : List Char → List (List Char)
  | [] => [[]]
  | a :: rest =>
    if a = c then [] :: jsSplitChar c rest
    else
      match jsSplitChar c rest with
      | [] => [[a]]
      | g :: gs => (a :: g) :: gs

/-- JavaScript `s.split(sep)` for a one-character separator (the only kind
the program uses: `"\n"`, `" "` and `","`). -/
def jsSplit (sep : Char) (s : String) : List String :=
  (jsSplitChar sep s.data).map fun l => String.mk l

/-- Does `needle` occur as a contiguous block of `hay`? -/
def containsSub (needle : List Char) : List Char → Bool
  | [] => needle.isPrefixOf []
  | a :: t => needle.isPrefixOf (a :: t) || containsSub needle t

/-- JavaScript `hay.includes(needle)`. -/
def strIncludes (hay needle : String) : Bool :=
  containsSub needle.data hay.data

/-- JavaScript `s.trim()`: strip leading and trailing whitespace. -/
def jsTrim (s : String) : String :=
  String.mk (((s.data.dropWhile Char.isWhitespace).reverse.dropWhile
    Char.isWhitespace).reverse)

/-- `MATERIAL_CATEGORIES.find((cat) => name.includes(cat)) || "other"`
(extension.ts, fetchMaterialIcons). -/
def inferCategory (nm : String) : String :=
  ((MATERIAL_CATEGORIES.find? fun c => strIncludes nm c).getD "other")

/-- The record pushed by `fetchMaterialIcons` for one fresh name. -/
def mkFetchedIcon (nm : String) : MaterialIcon :=
  { name := nm,
    category := inferCategory nm,
    tags := some [nm, inferCategory nm],
    description := some ("Material Icon: " ++ nm),
    svgContent := none,
    variant := some "filled",
    svgPath := none }

/-- `const [name] = line.split(" ")` — the token before the first space. -/
def firstToken (line : String) : String :=
  (jsSplit ' ' line).headD ""

/-- The parsing loop of `fetchMaterialIcons`: one record per line whose
first token has not been seen yet (the `Set` of seen names is the
accumulator). -/
def parseLinesAux : List String → List String → List MaterialIcon
  | [], _ => []
  | line :: rest, seen =>
    let nm := firstToken line
    if nm ∈ seen then parseLinesAux rest seen
    else mkFetchedIcon nm :: parseLinesAux rest (nm :: seen)

/-- `text.split("\n").filter((line) => line.trim())`. -/
def nonBlankLines (text : String) : List String :=
  (jsSplit '\n' text).filter fun l => jsTrim l != ""

/-- Successful-response body parsing in `fetchMaterialIcons`. -/
def parseIcons (text : String) : List MaterialIcon :=
  parseLinesAux (nonBlankLines text) []

/-- The synthetic fallback set built in the catch branch of
`fetchMaterialIcons`: one placeholder per category. -/
def fallbackIcons : List MaterialIcon :=
  MATERIAL_CATEGORIES.map fun c =>
    { name := c ++ "_icon",
      category := c,
      tags := some [c],
      description := none,
      svgContent := none,
      variant := some "filled",
      svgPath := none }

/-- `fetchMaterialIcons`: the network outcome is `some body` for an OK
response, `none` for a network error or non-OK response (both throw inside
the function's own try and are converted to the fallback set). -/
def fetchMaterialIcons : Option String → List MaterialIcon
  | some text => parseIcons text
  | none => fallbackIcons

/-- A parsed JSON value as far as this pipeline distinguishes them: an array
of record-shaped objects, or any other (truthy) JSON value, on which
`icons.map` would throw. -/
inductive Json where
  | arr (icons : List MaterialIcon)
  | nonArray
deriving Repr, DecidableEq

/-- State of one JSON file slot: missing (`fs.existsSync` is false), present
but raising on read or `JSON.parse`, or successfully parsed. -/
inductive FileState where
  | absent
  | invalid
  | valid (j : Json)
deriving Repr, DecidableEq

/-- The environment `loadIcons` reads and writes.  `memCache` is the
module-level `materialIconsCache`; `customFile` is `none` when the
`materialIcons.customIconsPath` setting is unset or empty; `codepoints` is
the remote codepoints fetch outcome (`none` = network error or non-OK). -/
structure Env where
  memCache : Option Json
  customFile : Option FileState
  workspaceRoot : Bool
  workspaceFile : FileState
  extensionPath : Option String
  cacheFile : FileState
  codepoints : Option String
deriving Repr, DecidableEq

/-- Result of one `loadIcons` call: returned value, updated environment,
number of network fetches and of `readFileSync` calls performed. -/
structure LoadOut where
  res : Json
  env : Env
  fetches : Nat
  reads : Nat
deriving Repr, DecidableEq

/-- `path.join(extensionPath, "resources", "icons", name_variant.svg)` with
`icon.variant || "filled"`. -/
def svgLocator (root : String) (ic : MaterialIcon) : String :=
  root ++ "/resources/icons/" ++ ic.name ++ "_" ++ orDefault ic.variant "filled" ++ ".svg"

/-- The cache-annotation map of `loadIcons`: spread the parsed record,
force `svgContent` to `undefined` and set `_svgPath`. -/
def annotateCached (root : String) (ic : MaterialIcon) : MaterialIcon :=
  { ic with svgContent := none, svgPath := some (svgLocator root ic) }

/-- Local-cache source step (`resources/material-icons-cache.json`).  A
parsed non-array makes `icons.map` throw, landing in the single catch that
returns `[]`. -/
def tryCacheSrc (root : String) (e : Env) : Sum LoadOut Env :=
  match e.cacheFile with
  | FileState.absent => Sum.inr e
  | FileState.invalid => Sum.inl ⟨Json.arr [], e, 0, 1⟩
  | FileState.valid Json.nonArray => Sum.inl ⟨Json.arr [], e, 0, 1⟩
  | FileState.valid (Json.arr l) =>
    let l2 := l.map (annotateCached root)
    Sum.inl ⟨Json.arr l2, {e with memCache := some (Json.arr l2)}, 0, 1⟩

/-- `if (extensionPath)` guard around the local-cache source. -/
def tryExtCache (e : Env) : Sum LoadOut Env :=
  match e.extensionPath with
  | none => Sum.inr e
  | some root => tryCacheSrc root e

/-- Workspace-override source step (`material-icons.json` in the first
workspace folder). -/
def tryWorkspaceSrc (e : Env) : Sum LoadOut Env :=
  if e.workspaceRoot then
    match e.workspaceFile with
    | FileState.absent => tryExtCache e
    | FileState.invalid => Sum.inl ⟨Json.arr [], e, 0, 1⟩
    | FileState.valid j => Sum.inl ⟨j, {e with memCache := some j}, 0, 1⟩
  else tryExtCache e

/-- Custom-path source step (`materialIcons.customIconsPath`). -/
def tryCustomSrc (e : Env) : Sum LoadOut Env :=
  match e.customFile with
  | none => tryWorkspaceSrc e
  | some FileState.absent => tryWorkspaceSrc e
  | some FileState.invalid => Sum.inl ⟨Json.arr [], e, 0, 1⟩
  | some (FileState.valid j) => Sum.inl ⟨j, {e with memCache := some j}, 0, 1⟩

/-- The synchronous prefix of `loadIcons`, up to the first suspension point
(`await fetchMaterialIcons()`).  `Sum.inl`: the call completed without
suspending; `Sum.inr`: it suspended at the remote fetch, with the
environment (in particular `materialIconsCache`) still untouched. -/
def phase1 (e : Env) : Sum LoadOut Env :=
  match e.memCache with
  | some j => Sum.inl ⟨j, e, 0, 0⟩
  | none => tryCustomSrc e

/-- The continuation of `loadIcons` after the remote fetch resolves:
build the record list (or the fallback), write the metadata cache file when
extension storage exists and the list is nonempty, memoize, return. -/
def phase2 (e : Env) : LoadOut :=
  let icons := fetchMaterialIcons e.codepoints
  let e2 :=
    match e.extensionPath with
    | some _ => if icons.isEmpty then e else {e with cacheFile := FileState.valid (Json.arr icons)}
    | none => e
  ⟨Json.arr icons, {e2 with memCache := some (Json.arr icons)}, 1, 0⟩

/-- `loadIcons` of extension.ts, as the composition of its synchronous
prefix and its post-fetch continuation. -/
def loadIcons (e : Env) : LoadOut :=
  match phase1 e with
  | Sum.inl out => out
  | Sum.inr e2 => phase2 e2

/-- `deactivate` clears the module-level memo. -/
def deactivate (e : Env) : Env :=
  {e with memCache := none}

/-- Two `loadIcons` calls where the second is issued before the first
resolution completes.  JavaScript is single-threaded, so if the first call
completes synchronously (`phase1` = `inl`) the second simply runs after it;
if the first call suspends at the remote fetch, the second runs its own
synchronous prefix against the unchanged environment (hence also suspends
at its own fetch), and the two continuations then run in order. -/
def racePair (e : Env) : LoadOut × LoadOut :=
  match phase1 e with
  | Sum.inl outA => (outA, loadIcons outA.env)
  | Sum.inr eA =>
    let outA := phase2 eA
    (outA, phase2 outA.env)

/-- The deterministic per-icon download URL of `getSvgContent`
(`icon.variant || ''` in the URL). -/
def svgUrl (ic : MaterialIcon) : String :=
  "https://fonts.gstatic.com/s/i/materialicons" ++ orDefault ic.variant "" ++
    "/" ++ ic.name ++ "/v1/24px.svg"

/-- Environment of `getSvgContent`: payload files on disk (path to
contents), the network (URL to body for OK responses, missing entry =
failure), and the optional extension storage root. -/
structure SvgEnv where
  disk : List (String × String)
  net : List (String × String)
  extPath : Option String
deriving Repr, DecidableEq

/-- Result of one `getSvgContent` call, with I/O counters
(`readFileSync` calls and network requests). -/
structure SvgOut where
  res : Option String
  icon : MaterialIcon
  env : SvgEnv
  diskReads : Nat
  netRequests : Nat
deriving Repr, DecidableEq

/-- The network branch of `getSvgContent`: fetch the deterministic URL; on
success attach the body to the record and, when extension storage exists,
write it at the deterministic locator path; on failure return absent. -/
def fetchSvgStep (ic : MaterialIcon) (env : SvgEnv) : SvgOut :=
  match env.net.lookup (svgUrl ic) with
  | some body =>
    let ic2 := {ic with svgContent := some body}
    match env.extPath with
    | some root =>
      ⟨some body, ic2, {env with disk := (svgLocator root ic, body) :: env.disk}, 0, 1⟩
    | none => ⟨some body, ic2, env, 0, 1⟩
  | none => ⟨none, ic, env, 0, 1⟩

/-- `getSvgContent` of extension.ts: memory, then the `_svgPath` file, then
the network. -/
def getSvgContent (ic : MaterialIcon) (env : SvgEnv) : SvgOut :=
  if truthy ic.svgContent then ⟨ic.svgContent, ic, env, 0, 0⟩
  else
    match ic.svgPath with
    | some p =>
      match env.disk.lookup p with
      | some content => ⟨some content, {ic with svgContent := some content}, env, 1, 0⟩
      | none => fetchSvgStep ic env
    | none => fetchSvgStep ic env

/-- The values collected by the input boxes of `saveIconCommand` (all
guards `if (!...) return` already passed for name and category). -/
structure SaveInput where
  iconName : String
  category : String
  tagsText : Option String
  svgContent : Option String
  variant : Option String
deriving Repr, DecidableEq

/-- The record object built by `saveIconCommand` from the inputs. -/
def mkCustomIcon (inp : SaveInput) : MaterialIcon :=
  { name := inp.iconName,
    category := inp.category,
    tags := some (match inp.tagsText with
      | some s => if s = "" then [] else (jsSplit ',' s).map fun t => jsTrim t
      | none => []),
    description := some ("Custom icon: " ++ inp.iconName),
    svgContent := inp.svgContent,
    variant := some (orDefault inp.variant "filled"),
    svgPath := none }

/-- The duplicate check of `saveIconCommand`:
`icon.name === iconName && icon.variant === (variant || "filled")`. -/
def matchKey (inp : SaveInput) (ic : MaterialIcon) : Bool :=
  ic.name == inp.iconName && ic.variant == some (orDefault inp.variant "filled")

/-- Result of `saveIconCommand`'s core: the new in-memory collection, the
updated environment, and whether an existing record was updated. -/
structure SaveOut where
  icons : List MaterialIcon
  env : Env
  updated : Bool
deriving Repr, DecidableEq

/-- The mutation-and-persist core of `saveIconCommand`: replace at the
found index or push, refresh the module memo, and (when a workspace root
exists) overwrite the workspace override file with the whole collection. -/
def saveIcon (inp : SaveInput) (icons : List MaterialIcon) (e : Env) : SaveOut :=
  let newIcon := mkCustomIcon inp
  let idx := icons.findIdx? (matchKey inp)
  let newIcons :=
    match idx with
    | some i => icons.set i newIcon
    | none => icons ++ [newIcon]
  let e2 := {e with memCache := some (Json.arr newIcons)}
  if e.workspaceRoot then
    ⟨newIcons, {e2 with workspaceFile := FileState.valid (Json.arr newIcons)}, idx.isSome⟩
  else
    ⟨newIcons, e2, idx.isSome⟩

/-- First-occurrence-wins deduplication with an accumulator of seen keys:
the reference description of the name set kept by the fetcher's loop. -/
def dedupFirstAux : List String → List String → List String
  | [], _ => []
  | t :: rest, seen =>
    if t ∈ seen then dedupFirstAux rest seen
    else t :: dedupFirstAux rest (t :: seen)

/-- First-occurrence-wins deduplication of a list of names. -/
def dedupFirst (l : List String) : List String :=
  dedupFirstAux l []

/-- Fixture: a plain record with the default variant stored explicitly. -/
def homeFilled : MaterialIcon :=
  ⟨"home", "home", none, none, none, some "filled", none⟩

/-- Fixture: the same name with the variant field absent. -/
def homeNoVar : MaterialIcon :=
  ⟨"home", "home", none, none, none, none, none⟩

/-- Fixture environment: workspace root open, nothing else configured. -/
def baseEnv : Env :=
  ⟨none, none, true, FileState.absent, none, FileState.absent, none⟩

/-- Fixture: all four sources present, but the custom-path file parses to a
JSON value that is not an array of records. -/
def envC1cex : Env :=
  ⟨none, some (FileState.valid Json.nonArray), true,
   FileState.valid (Json.arr [homeFilled]), some "ext",
   FileState.valid (Json.arr []), some "home 1"⟩

/-- Fixture: all four sources present and valid. -/
def envC1w : Env :=
  ⟨none, some (FileState.valid (Json.arr [homeFilled])), true,
   FileState.valid (Json.arr [homeNoVar]), some "ext",
   FileState.valid (Json.arr []), some "home 1"⟩

/-- Fixture: malformed custom-path file, valid workspace override. -/
def envC2cex : Env :=
  ⟨none, some FileState.invalid, true,
   FileState.valid (Json.arr [homeFilled]), none, FileState.absent, none⟩

/-- Fixture: configured-but-missing custom path, valid workspace override. -/
def envC2w : Env :=
  ⟨none, some FileState.absent, true,
   FileState.valid (Json.arr [homeFilled]), none, FileState.absent, none⟩

/-- Fixture: only the local metadata cache is available (plus an open
workspace root for the later registrar write). -/
def envC3 : Env :=
  ⟨none, none, true, FileState.absent, some "ext",
   FileState.valid (Json.arr [homeFilled]), none⟩

/-- Fixture: the in-memory collection produced by loading `envC3`. -/
def cacheLoaded : List MaterialIcon :=
  [annotateCached "ext" homeFilled]

/-- Fixture registrar input: a novel icon. -/
def starInput : SaveInput :=
  ⟨"star", "action", none, none, some "filled"⟩

/-- Fixture registrar input matching `homeFilled`. -/
def inpUpd : SaveInput :=
  ⟨"home", "action", some "a,b", none, some "filled"⟩

/-- Fixture registrar input with the default variant (against `homeNoVar`). -/
def inpC8 : SaveInput :=
  ⟨"home", "custom", none, none, some "filled"⟩

/-- Fixture payload environment: empty disk, failing network. -/
def svgEnvFail : SvgEnv :=
  ⟨[], [], some "ext"⟩

/-- Fixture payload environment: a payload file on disk at path `p`. -/
def svgEnvDisk : SvgEnv :=
  ⟨[("p", "svgbody")], [], some "ext"⟩

/-- Fixture record whose `_svgPath` names the file of `svgEnvDisk`. -/
def homeWithPath : MaterialIcon :=
  ⟨"home", "home", none, none, none, some "filled", some "p"⟩

/-- Fixture: nothing configured, no cache, failing network. -/
def envC6w : Env :=
  ⟨none, none, false, FileState.absent, none, FileState.absent, none⟩

/-- Fixture: memoized collection already present. -/
def envC9 : Env :=
  ⟨some (Json.arr [homeFilled]), none, false, FileState.absent, none,
   FileState.absent, none⟩

/-- Fixture: empty environment that reaches the remote fetch. -/
def envC10 : Env :=
  ⟨none, none, false, FileState.absent, some "ext", FileState.absent,
   some "home 1"⟩

theorem mkFetchedIcon_name (nm : String) : (mkFetchedIcon nm).name = nm := rfl

theorem parseLinesAux_names : ∀ (ls seen : List String),
    (parseLinesAux ls seen).map (fun ic => ic.name)
      = dedupFirstAux (ls.map firstToken) seen := by
  intro ls
  induction ls with
  | nil => intro seen; rfl
  | cons l rest ih =>
    intro seen
    simp only [parseLinesAux, List.map_cons, dedupFirstAux]
    by_cases h : firstToken l ∈ seen
    · simp only [if_pos h, ih]
    · simp only [if_neg h, List.map_cons, mkFetchedIcon_name, ih]

theorem dedupFirstAux_nodup : ∀ (ls seen : List String),
    (dedupFirstAux ls seen).Nodup ∧ ∀ t ∈ dedupFirstAux ls seen, t ∉ seen := by
  intro ls
  induction ls with
  | nil => intro seen; simp [dedupFirstAux]
  | cons t rest ih =>
    intro seen
    by_cases h : t ∈ seen
    · simpa only [dedupFirstAux, if_pos h] using ih seen
    · simp only [dedupFirstAux, if_neg h]
      refine ⟨List.nodup_cons.mpr ⟨fun hmem => ?_, (ih (t :: seen)).1⟩, ?_⟩
      · exact (ih (t :: seen)).2 t hmem (List.mem_cons_self t seen)
      · intro t' ht'
        rcases List.mem_cons.mp ht' with rfl | h2
        · exact h
        · intro hs
          exact (ih (t :: seen)).2 t' h2 (List.mem_cons_of_mem _ hs)

theorem parseLinesAux_shape : ∀ (ls seen : List String),
    ∀ ic ∈ parseLinesAux ls seen, ic = mkFetchedIcon ic.name := by
  intro ls
  induction ls with
  | nil => intro seen ic h; simp [parseLinesAux] at h
  | cons l rest ih =>
    intro seen ic h
    simp only [parseLinesAux] at h
    by_cases hmem : firstToken l ∈ seen
    · exact ih seen ic (by simpa only [if_pos hmem] using h)
    · rw [if_neg hmem] at h
      rcases List.mem_cons.mp h with rfl | h2
      · rfl
      · exact ih _ ic h2

theorem parseLinesAux_svgPath : ∀ (ls seen : List String),
    ∀ ic ∈ parseLinesAux ls seen, ic.svgPath = none := by
  intro ls seen ic h
  rw [parseLinesAux_shape ls seen ic h]
  rfl

theorem fetchMaterialIcons_svgPath (cp : Option String) :
    ∀ ic ∈ fetchMaterialIcons cp, ic.svgPath = none := by
  cases cp with
  | some text => exact parseLinesAux_svgPath _ _
  | none =>
    intro ic h
    simp only [fetchMaterialIcons, fallbackIcons, List.mem_map] at h
    obtain ⟨c, _, rfl⟩ := h
    rfl

/-- C5: for every raw newline-delimited name list, `fetchMaterialIcons`
produces exactly one record per distinct first-token name, keeping the
first occurrence and silently dropping later duplicate lines: the record
names are the first-wins deduplication of the first tokens of the
non-blank lines (so they are pairwise distinct), and every record is
determined by its name as the fetcher's loop built it. -/
theorem c5_dedup_first_wins (text : String) :
    ((parseIcons text).map (fun ic => ic.name)
        = dedupFirst ((nonBlankLines text).map firstToken))
    ∧ ((parseIcons text).map (fun ic => ic.name)).Nodup
    ∧ (∀ ic ∈ parseIcons text, ic = mkFetchedIcon ic.name)
    ∧ parseIcons "home 1\nhome 1\nhome_outline 2"
        = [mkFetchedIcon "home", mkFetchedIcon "home_outline"] := by
  refine ⟨parseLinesAux_names _ [], ?_, parseLinesAux_shape _ [], by decide⟩
  simp only [parseIcons]
  rw [parseLinesAux_names]
  exact (dedupFirstAux_nodup _ []).1

theorem tryWorkspace_skip (e : Env)
    (h : e.workspaceRoot = false ∨ e.workspaceFile = FileState.absent) :
    tryWorkspaceSrc e = tryExtCache e := by
  rcases h with h | h
  · simp [tryWorkspaceSrc, h]
  · by_cases hr : e.workspaceRoot <;> simp [tryWorkspaceSrc, hr, h]

theorem tryExt_skip (e : Env)
    (h : e.extensionPath = none ∨ e.cacheFile = FileState.absent) :
    tryExtCache e = Sum.inr e := by
  rcases h with h | h
  · simp [tryExtCache, h]
  · cases hx : e.extensionPath with
    | none => simp [tryExtCache, hx]
    | some root => simp [tryExtCache, hx, tryCacheSrc, h]

theorem tryCustom_skip (e : Env)
    (h : e.customFile = none ∨ e.customFile = some FileState.absent) :
    tryCustomSrc e = tryWorkspaceSrc e := by
  rcases h with h | h <;> simp [tryCustomSrc, h]

theorem loadIcons_remote (e : Env)
    (hm : e.memCache = none)
    (hc : e.customFile = none ∨ e.customFile = some FileState.absent)
    (hw : e.workspaceRoot = false ∨ e.workspaceFile = FileState.absent)
    (hx : e.extensionPath = none ∨ e.cacheFile = FileState.absent) :
    loadIcons e = phase2 e := by
  unfold loadIcons phase1
  rw [hm, tryCustom_skip e hc, tryWorkspace_skip e hw, tryExt_skip e hx]

/-- C6: whenever the remote catalog fetch fails, `fetchMaterialIcons`
returns (without throwing) the synthetic fallback set containing exactly
one placeholder record per known category, named `<category>_icon`; and
with no custom path configured, no workspace override file, no local cache
and a failing network call, `loadIcons` returns exactly this fallback set. -/
theorem c6_fallback (e : Env)
    (hm : e.memCache = none)
    (hc : e.customFile = none)
    (hw : e.workspaceRoot = false ∨ e.workspaceFile = FileState.absent)
    (hx : e.extensionPath = none ∨ e.cacheFile = FileState.absent)
    (hn : e.codepoints = none) :
    (loadIcons e).res = Json.arr fallbackIcons
    ∧ fetchMaterialIcons none = fallbackIcons
    ∧ fallbackIcons.map (fun ic => ic.name)
        = MATERIAL_CATEGORIES.map (fun c => c ++ "_icon")
    ∧ fallbackIcons.length = MATERIAL_CATEGORIES.length := by
  refine ⟨?_, by rfl, by decide, by decide⟩
  rw [loadIcons_remote e hm (Or.inl hc) hw hx]
  simp [phase2, hn, fetchMaterialIcons]

/-- C6 witness: the concrete bare environment with a failing network. -/
theorem c6_fallback_witness :
    (loadIcons envC6w).res = Json.arr fallbackIcons
    ∧ fetchMaterialIcons none = fallbackIcons
    ∧ fallbackIcons.map (fun ic => ic.name)
        = MATERIAL_CATEGORIES.map (fun c => c ++ "_icon")
    ∧ fallbackIcons.length = MATERIAL_CATEGORIES.length :=
  c6_fallback envC6w rfl rfl (Or.inl rfl) (Or.inl rfl) rfl

theorem loadIcons_custom_valid (e : Env) (j : Json)
    (hm : e.memCache = none) (hc : e.customFile = some (FileState.valid j)) :
    loadIcons e = ⟨j, {e with memCache := some j}, 0, 1⟩ := by
  simp [loadIcons, phase1, tryCustomSrc, hm, hc]

theorem loadIcons_custom_invalid (e : Env)
    (hm : e.memCache = none) (hc : e.customFile = some FileState.invalid) :
    loadIcons e = ⟨Json.arr [], e, 0, 1⟩ := by
  simp [loadIcons, phase1, tryCustomSrc, hm, hc]

theorem loadIcons_workspace_valid (e : Env) (j : Json)
    (hm : e.memCache = none)
    (hc : e.customFile = none ∨ e.customFile = some FileState.absent)
    (hr : e.workspaceRoot = true) (hw : e.workspaceFile = FileState.valid j) :
    loadIcons e = ⟨j, {e with memCache := some j}, 0, 1⟩ := by
  unfold loadIcons phase1
  rw [hm, tryCustom_skip e hc]
  simp [tryWorkspaceSrc, hr, hw]

theorem loadIcons_workspace_invalid (e : Env)
    (hm : e.memCache = none)
    (hc : e.customFile = none ∨ e.customFile = some FileState.absent)
    (hr : e.workspaceRoot = true) (hw : e.workspaceFile = FileState.invalid) :
    loadIcons e = ⟨Json.arr [], e, 0, 1⟩ := by
  unfold loadIcons phase1
  rw [hm, tryCustom_skip e hc]
  simp [tryWorkspaceSrc, hr, hw]

/-- C1 (amended): with all four sources simultaneously present and valid,
`loadIcons` returns exactly the parsed custom-path contents — one file
read, no network fetch, no merging with workspace, cache or remote data.
The custom-path source is satisfied whenever the configured file exists
and its contents parse as JSON: the returned value `j` is arbitrary here,
because the code performs no validation that the parsed value is an array
of IconRecord-shaped objects. -/
theorem c1_custom_precedence (e : Env) (j : Json) (l2 l3 : List MaterialIcon)
    (root txt : String)
    (hm : e.memCache = none)
    (hc : e.customFile = some (FileState.valid j))
    (hr : e.workspaceRoot = true)
    (hw : e.workspaceFile = FileState.valid (Json.arr l2))
    (hx : e.extensionPath = some root)
    (hf : e.cacheFile = FileState.valid (Json.arr l3))
    (hn : e.codepoints = some txt) :
    loadIcons e = ⟨j, {e with memCache := some j}, 0, 1⟩ :=
  loadIcons_custom_valid e j hm hc

/-- C1 counterexample: the claim's condition "the custom-path source is
satisfied only when the file parses as a valid JSON array of
IconRecord-shaped objects" is false.  With a custom file whose contents
parse to a non-array JSON value and a valid workspace override present,
`loadIcons` returns the non-array value (the custom source wins anyway)
instead of falling through to the workspace contents. -/
theorem c1_counterexample :
    (loadIcons envC1cex).res = Json.nonArray
    ∧ (loadIcons envC1cex).res ≠ Json.arr [homeFilled] := by
  decide

/-- C1 witness: the concrete all-sources-valid environment. -/
theorem c1_witness :
    loadIcons envC1w = ⟨Json.arr [homeFilled],
      {envC1w with memCache := some (Json.arr [homeFilled])}, 0, 1⟩ :=
  c1_custom_precedence envC1w (Json.arr [homeFilled]) [homeNoVar] [] "ext"
    "home 1" rfl rfl rfl rfl rfl rfl rfl

/-- C2 (amended): a missing file at a source falls through to the next
source, but an I/O or parse error at a source does not: the whole
resolution runs inside a single try/catch, so a malformed custom-path or
workspace file makes `loadIcons` return an empty array immediately,
without attempting the remaining sources. -/
theorem c2_error_policy (e : Env) (j : Json) (hm : e.memCache = none) :
    (e.customFile = some FileState.invalid →
      loadIcons e = ⟨Json.arr [], e, 0, 1⟩)
    ∧ ((e.customFile = none ∨ e.customFile = some FileState.absent) →
      e.workspaceRoot = true → e.workspaceFile = FileState.valid j →
      loadIcons e = ⟨j, {e with memCache := some j}, 0, 1⟩)
    ∧ ((e.customFile = none ∨ e.customFile = some FileState.absent) →
      e.workspaceRoot = true → e.workspaceFile = FileState.invalid →
      loadIcons e = ⟨Json.arr [], e, 0, 1⟩) :=
  ⟨fun hc => loadIcons_custom_invalid e hm hc,
   fun hc hr hw => loadIcons_workspace_valid e j hm hc hr hw,
   fun hc hr hw => loadIcons_workspace_invalid e hm hc hr hw⟩

/-- C2 counterexample: a malformed custom-path file with a valid workspace
override.  The claim predicts fallthrough to the workspace contents;
`loadIcons` instead returns the empty array from the catch branch. -/
theorem c2_counterexample :
    (loadIcons envC2cex).res = Json.arr []
    ∧ (loadIcons envC2cex).res ≠ Json.arr [homeFilled] := by
  decide

/-- C2 witness: a configured-but-missing custom path falls through to the
valid workspace override; a malformed custom path returns the empty
array. -/
theorem c2_witness :
    loadIcons envC2w = ⟨Json.arr [homeFilled],
      {envC2w with memCache := some (Json.arr [homeFilled])}, 0, 1⟩
    ∧ loadIcons envC2cex = ⟨Json.arr [], envC2cex, 0, 1⟩ :=
  ⟨(c2_error_policy envC2w (Json.arr [homeFilled]) rfl).2.1
      (Or.inr rfl) rfl rfl,
   (c2_error_policy envC2cex Json.nonArray rfl).1 rfl⟩

theorem loadIcons_memoizes_or_leaves (e : Env) (hm : e.memCache = none) :
    (loadIcons e).env.memCache = some (loadIcons e).res
    ∨ (loadIcons e).env = e := by
  rcases e with ⟨mc, cf, wr, wf, xp, cfl, cp⟩
  obtain rfl : mc = none := hm
  rcases cf with _ | (_ | _ | jc) <;>
    cases wr <;>
    rcases wf with _ | _ | jw <;>
    rcases xp with _ | root <;>
    rcases cfl with _ | _ | (lc | _) <;>
    simp [loadIcons, phase1, tryCustomSrc, tryWorkspaceSrc, tryExtCache,
      tryCacheSrc, phase2]

/-- C9: `loadIcons` is memoized for the process lifetime.  Once
`materialIconsCache` holds a collection, every call returns it verbatim
with zero file reads and zero network fetches and leaves the environment
untouched, regardless of every configuration field; `deactivate` clears
the memo; and any call that starts with an empty memo either stores
exactly its own result in the memo or leaves the environment unchanged
(the catch branch, which does not memoize). -/
theorem c9_memoized (e : Env) (j : Json) :
    (e.memCache = some j → loadIcons e = ⟨j, e, 0, 0⟩)
    ∧ (deactivate e).memCache = none
    ∧ (e.memCache = none →
        (loadIcons e).env.memCache = some (loadIcons e).res
        ∨ (loadIcons e).env = e) :=
  ⟨fun h => by simp [loadIcons, phase1, h],
   rfl,
   fun hm => loadIcons_memoizes_or_leaves e hm⟩

/-- C9 witness: a memoized environment returns its cached collection with
zero I/O, and deactivation clears the memo. -/
theorem c9_witness :
    loadIcons envC9 = ⟨Json.arr [homeFilled], envC9, 0, 0⟩
    ∧ (deactivate envC9).memCache = none :=
  ⟨(c9_memoized envC9 (Json.arr [homeFilled])).1 rfl,
   (c9_memoized envC9 (Json.arr [homeFilled])).2.1⟩

theorem saveIcon_workspace_write (inp : SaveInput) (icons : List MaterialIcon)
    (e : Env) (hr : e.workspaceRoot = true) :
    (saveIcon inp icons e).env.workspaceFile
      = FileState.valid (Json.arr ((saveIcon inp icons e).icons)) := by
  simp [saveIcon, hr]

theorem saveIcon_set (inp : SaveInput) (icons : List MaterialIcon) (e : Env)
    (i : Nat) (h : icons.findIdx? (matchKey inp) = some i) :
    (saveIcon inp icons e).icons = icons.set i (mkCustomIcon inp) := by
  by_cases hr : e.workspaceRoot <;> simp [saveIcon, h, hr]

theorem saveIcon_append (inp : SaveInput) (icons : List MaterialIcon)
    (e : Env) (h : icons.findIdx? (matchKey inp) = none) :
    (saveIcon inp icons e).icons = icons ++ [mkCustomIcon inp] := by
  by_cases hr : e.workspaceRoot <;> simp [saveIcon, h, hr]

theorem saveIcon_updated (inp : SaveInput) (icons : List MaterialIcon)
    (e : Env) :
    (saveIcon inp icons e).updated = (icons.findIdx? (matchKey inp)).isSome := by
  by_cases hr : e.workspaceRoot <;> simp [saveIcon, hr]

/-- C3 (amended): the metadata cache file written after a remote fetch
contains only records without the private `_svgPath` locator (fetched
records never carry one); the registrar, however, persists the in-memory
collection verbatim to the workspace override file — so records that were
loaded from the local cache, which annotates each of them with a locator,
are written out with their `_svgPath` included. -/
theorem c3_locator_persistence :
    (∀ cp : Option String, ∀ ic ∈ fetchMaterialIcons cp, ic.svgPath = none)
    ∧ (∀ e : Env, ∀ root : String,
        e.memCache = none →
        (e.customFile = none ∨ e.customFile = some FileState.absent) →
        (e.workspaceRoot = false ∨ e.workspaceFile = FileState.absent) →
        e.extensionPath = some root →
        e.cacheFile = FileState.absent →
        fetchMaterialIcons e.codepoints ≠ [] →
        (loadIcons e).env.cacheFile
          = FileState.valid (Json.arr (fetchMaterialIcons e.codepoints)))
    ∧ (∀ (inp : SaveInput) (icons : List MaterialIcon) (e : Env),
        e.workspaceRoot = true →
        (saveIcon inp icons e).env.workspaceFile
          = FileState.valid (Json.arr ((saveIcon inp icons e).icons))) := by
  refine ⟨fetchMaterialIcons_svgPath, ?_, saveIcon_workspace_write⟩
  intro e root hm hc hw hx hf hne
  rw [loadIcons_remote e hm hc hw (Or.inr hf)]
  simp only [phase2, hx]
  rw [if_neg (by simpa [List.isEmpty_iff] using hne)]

/-- C3 counterexample: load from the local cache (the loaded record gets
`_svgPath` = "ext/resources/icons/home_filled.svg"), then register a novel
icon.  The registrar writes the whole in-memory collection to the
workspace override file, locator included — refuting "every serialized
element matches the IconRecord shape minus payloadLocator". -/
theorem c3_counterexample :
    (loadIcons envC3).res = Json.arr cacheLoaded
    ∧ (saveIcon starInput cacheLoaded (loadIcons envC3).env).env.workspaceFile
        = FileState.valid (Json.arr (cacheLoaded ++ [mkCustomIcon starInput]))
    ∧ (annotateCached "ext" homeFilled).svgPath
        = some "ext/resources/icons/home_filled.svg" := by
  decide

/-- C3 witness: a concrete remote-fetch run whose written cache carries no
locators, and a concrete registrar write. -/
theorem c3_witness :
    (loadIcons envC10).env.cacheFile
      = FileState.valid (Json.arr (fetchMaterialIcons (some "home 1")))
    ∧ (saveIcon starInput [] baseEnv).env.workspaceFile
      = FileState.valid (Json.arr ((saveIcon starInput [] baseEnv).icons)) :=
  ⟨c3_locator_persistence.2.1 envC10 "ext" rfl (Or.inl rfl) (Or.inl rfl)
      rfl rfl (by decide),
   c3_locator_persistence.2.2 starInput [] baseEnv rfl⟩

/-- C7: the registrar's upsert.  With a workspace root open: a candidate
whose (name, variant) key matches an existing record (the code's strict
`findIndex` test) replaces that record in place at its original position,
leaving the collection length unchanged — and the matched slot really
satisfied the key test; a candidate with a novel key is appended, growing
the length by exactly one; in both cases the whole current collection is
persisted to the workspace override file as a full overwrite. -/
theorem c7_registrar_upsert (inp : SaveInput) (icons : List MaterialIcon)
    (e : Env) (hr : e.workspaceRoot = true) :
    ((saveIcon inp icons e).env.workspaceFile
      = FileState.valid (Json.arr ((saveIcon inp icons e).icons)))
    ∧ (∀ i, icons.findIdx? (matchKey inp) = some i →
        (saveIcon inp icons e).icons = icons.set i (mkCustomIcon inp)
        ∧ (saveIcon inp icons e).icons.length = icons.length
        ∧ ∃ h : i < icons.length, matchKey inp (icons.get ⟨i, h⟩) = true)
    ∧ (icons.findIdx? (matchKey inp) = none →
        (saveIcon inp icons e).icons = icons ++ [mkCustomIcon inp]
        ∧ (saveIcon inp icons e).icons.length = icons.length + 1) := by
  refine ⟨saveIcon_workspace_write inp icons e hr, ?_, ?_⟩
  · intro i hidx
    obtain ⟨hlt, hp, -⟩ := List.findIdx?_eq_some_iff_getElem.mp hidx
    exact ⟨saveIcon_set inp icons e i hidx,
      by rw [saveIcon_set inp icons e i hidx]; simp,
      ⟨hlt, by simpa [List.get_eq_getElem] using hp⟩⟩
  · intro hidx
    exact ⟨saveIcon_append inp icons e hidx,
      by rw [saveIcon_append inp icons e hidx]; simp⟩

/-- C7 witness: updating the record of `homeFilled` keeps length 1 and
persists; registering a novel key over the same collection yields length
2. -/
theorem c7_witness :
    (saveIcon inpUpd [homeFilled] baseEnv).icons
        = [mkCustomIcon inpUpd]
    ∧ (saveIcon inpUpd [homeFilled] baseEnv).icons.length = 1
    ∧ (saveIcon inpUpd [homeFilled] baseEnv).env.workspaceFile
        = FileState.valid (Json.arr [mkCustomIcon inpUpd])
    ∧ (saveIcon starInput [homeFilled] baseEnv).icons.length = 2 := by
  have h1 := c7_registrar_upsert inpUpd [homeFilled] baseEnv rfl
  have h2 := c7_registrar_upsert starInput [homeFilled] baseEnv rfl
  have hset := (h1.2.1 0 (by decide)).1
  refine ⟨hset, (h1.2.1 0 (by decide)).2.1, ?_, (h2.2.2 (by decide)).2⟩
  rw [h1.1, hset]
  rfl

theorem saveIcon_none_variant_append (inp : SaveInput)
    (icons : List MaterialIcon) (e : Env)
    (h : ∀ ic ∈ icons, ic.variant = none) :
    icons.findIdx? (matchKey inp) = none := by
  rw [List.findIdx?_eq_none_iff]
  intro ic hic
  simp [matchKey, h ic hic]

/-- C8 (amended): the registrar compares variants by strict equality on
the raw stored field, so a record whose variant field is absent is never
matched by any candidate — in particular not by the default variant
"filled".  Registering against a collection of absent-variant records
therefore always appends a new record instead of updating in place. -/
theorem c8_strict_variant (inp : SaveInput) (icons : List MaterialIcon)
    (e : Env) (h : ∀ ic ∈ icons, ic.variant = none) :
    (saveIcon inp icons e).icons = icons ++ [mkCustomIcon inp]
    ∧ (saveIcon inp icons e).icons.length = icons.length + 1
    ∧ (saveIcon inp icons e).updated = false := by
  have hidx := saveIcon_none_variant_append inp icons e h
  refine ⟨saveIcon_append inp icons e hidx, ?_, ?_⟩
  · rw [saveIcon_append inp icons e hidx]; simp
  · rw [saveIcon_updated, hidx]; rfl

/-- C8 counterexample: registering name "home" with the default variant
"filled" against a collection holding a record named "home" with an
absent variant field appends a second record (length 2, nothing updated),
where the claim requires the existing record to be updated in place. -/
theorem c8_counterexample :
    (saveIcon inpC8 [homeNoVar] baseEnv).icons.length = 2
    ∧ (saveIcon inpC8 [homeNoVar] baseEnv).updated = false := by
  decide

/-- C8 witness: the amended behavior at the same concrete input. -/
theorem c8_witness :
    (saveIcon inpC8 [homeNoVar] baseEnv).icons
        = [homeNoVar, mkCustomIcon inpC8]
    ∧ (saveIcon inpC8 [homeNoVar] baseEnv).icons.length = 2
    ∧ (saveIcon inpC8 [homeNoVar] baseEnv).updated = false :=
  c8_strict_variant inpC8 [homeNoVar] baseEnv
    (by intro ic hic; rcases List.mem_singleton.mp hic with rfl; rfl)

theorem getSvg_memory (ic : MaterialIcon) (env : SvgEnv) (s : String)
    (h1 : ic.svgContent = some s) (h2 : s ≠ "") :
    getSvgContent ic env = ⟨some s, ic, env, 0, 0⟩ := by
  simp [getSvgContent, truthy, h1, h2]

theorem getSvg_disk (ic : MaterialIcon) (env : SvgEnv) (p c : String)
    (h0 : truthy ic.svgContent = false) (hp : ic.svgPath = some p)
    (hd : env.disk.lookup p = some c) :
    getSvgContent ic env = ⟨some c, {ic with svgContent := some c}, env, 1, 0⟩ := by
  simp [getSvgContent, h0, hp, hd]

theorem fetchSvg_ok_ext (ic : MaterialIcon) (env : SvgEnv) (body root : String)
    (hn : env.net.lookup (svgUrl ic) = some body)
    (hx : env.extPath = some root) :
    fetchSvgStep ic env = ⟨some body, {ic with svgContent := some body},
      {env with disk := (svgLocator root ic, body) :: env.disk}, 0, 1⟩ := by
  simp [fetchSvgStep, hn, hx]

theorem fetchSvg_fail (ic : MaterialIcon) (env : SvgEnv)
    (hn : env.net.lookup (svgUrl ic) = none) :
    fetchSvgStep ic env = ⟨none, ic, env, 0, 1⟩ := by
  simp [fetchSvgStep, hn]

theorem getSvg_no_path (ic : MaterialIcon) (env : SvgEnv)
    (h0 : truthy ic.svgContent = false) (hp : ic.svgPath = none) :
    getSvgContent ic env = fetchSvgStep ic env := by
  simp [getSvgContent, h0, hp]

theorem getSvg_res_icon (ic : MaterialIcon) (env : SvgEnv) (s : String)
    (h : (getSvgContent ic env).res = some s) :
    (getSvgContent ic env).icon.svgContent = some s := by
  by_cases h0 : truthy ic.svgContent
  · simp only [getSvgContent, if_pos h0] at h ⊢
    exact h
  · rw [Bool.not_eq_true] at h0
    cases hp : ic.svgPath with
    | some p =>
      cases hd : env.disk.lookup p with
      | some c => simp [getSvgContent, h0, hp, hd] at h ⊢; exact h
      | none =>
        cases hn : env.net.lookup (svgUrl ic) with
        | some body =>
          cases hx : env.extPath with
          | some root =>
            simp [getSvgContent, h0, hp, hd, fetchSvgStep, hn, hx] at h ⊢
            exact h
          | none =>
            simp [getSvgContent, h0, hp, hd, fetchSvgStep, hn, hx] at h ⊢
            exact h
        | none => simp [getSvgContent, h0, hp, hd, fetchSvgStep, hn] at h
    | none =>
      cases hn : env.net.lookup (svgUrl ic) with
      | some body =>
        cases hx : env.extPath with
        | some root =>
          simp [getSvgContent, h0, hp, fetchSvgStep, hn, hx] at h ⊢
          exact h
        | none =>
          simp [getSvgContent, h0, hp, fetchSvgStep, hn, hx] at h ⊢
          exact h
      | none => simp [getSvgContent, h0, hp, fetchSvgStep, hn] at h

/-- C4 (amended): payload resolution follows the three-step short-circuit.
If the record's payload is set (to a non-empty string, since the code
tests JavaScript truthiness) it is returned unchanged with no I/O; else if
its locator names an existing file, that file's contents are returned and
attached to the record (one disk read, no network); else a request to the
deterministic URL is issued, and on success — with extension storage
available — the payload is attached to the record and written to the
deterministic locator path, while on failure the result is absent with the
record unchanged, so nothing is memoized.  Consequently a second call
returns a memoized non-empty payload with zero I/O; a failed first call,
however, is retried in full by the second call. -/
theorem c4_payload_resolution (ic : MaterialIcon) (env : SvgEnv) :
    (∀ s, ic.svgContent = some s → s ≠ "" →
      getSvgContent ic env = ⟨some s, ic, env, 0, 0⟩)
    ∧ (∀ p c, truthy ic.svgContent = false → ic.svgPath = some p →
        env.disk.lookup p = some c →
        getSvgContent ic env
          = ⟨some c, {ic with svgContent := some c}, env, 1, 0⟩)
    ∧ (∀ body root, truthy ic.svgContent = false → ic.svgPath = none →
        env.net.lookup (svgUrl ic) = some body → env.extPath = some root →
        getSvgContent ic env = ⟨some body, {ic with svgContent := some body},
          {env with disk := (svgLocator root ic, body) :: env.disk}, 0, 1⟩)
    ∧ (truthy ic.svgContent = false → ic.svgPath = none →
        env.net.lookup (svgUrl ic) = none →
        getSvgContent ic env = ⟨none, ic, env, 0, 1⟩)
    ∧ (∀ s, (getSvgContent ic env).res = some s → s ≠ "" →
        getSvgContent (getSvgContent ic env).icon (getSvgContent ic env).env
          = ⟨some s, (getSvgContent ic env).icon,
              (getSvgContent ic env).env, 0, 0⟩) := by
  refine ⟨fun s h1 h2 => getSvg_memory ic env s h1 h2,
    fun p c h0 hp hd => getSvg_disk ic env p c h0 hp hd,
    fun body root h0 hp hn hx => ?_,
    fun h0 hp hn => ?_,
    fun s hres hne => getSvg_memory _ _ s (getSvg_res_icon ic env s hres) hne⟩
  · rw [getSvg_no_path ic env h0 hp]
    exact fetchSvg_ok_ext ic env body root hn hx
  · rw [getSvg_no_path ic env h0 hp]
    exact fetchSvg_fail ic env hn

/-- C4 counterexample: with no payload, no locator and a failing network,
each of two successive `getSvgContent` calls on the same record issues its
own network request (two in total), refuting "calling resolve twice on the
same record performs at most one disk read or one network request". -/
theorem c4_counterexample :
    (getSvgContent homeFilled svgEnvFail).res = none
    ∧ (getSvgContent homeFilled svgEnvFail).netRequests
        + (getSvgContent (getSvgContent homeFilled svgEnvFail).icon
            (getSvgContent homeFilled svgEnvFail).env).netRequests = 2 := by
  decide

/-- C4 witness: a record whose locator names an existing file is resolved
by one disk read, and the second call returns the memoized payload with
zero I/O. -/
theorem c4_witness :
    getSvgContent homeWithPath svgEnvDisk
      = ⟨some "svgbody", {homeWithPath with svgContent := some "svgbody"},
          svgEnvDisk, 1, 0⟩
    ∧ getSvgContent (getSvgContent homeWithPath svgEnvDisk).icon
        (getSvgContent homeWithPath svgEnvDisk).env
      = ⟨some "svgbody", (getSvgContent homeWithPath svgEnvDisk).icon,
          (getSvgContent homeWithPath svgEnvDisk).env, 0, 0⟩ :=
  ⟨(c4_payload_resolution homeWithPath svgEnvDisk).2.1 "p" "svgbody"
      rfl rfl rfl,
   (c4_payload_resolution homeWithPath svgEnvDisk).2.2.2.2 "svgbody"
      (by decide) (by decide)⟩

theorem phase1_inr (e e' : Env) (h : phase1 e = Sum.inr e') : e' = e := by
  rcases e with ⟨mc, cf, wr, wf, xp, cfl, cp⟩
  rcases mc with _ | j
  · rcases cf with _ | (_ | _ | jc) <;>
      cases wr <;>
      rcases wf with _ | _ | jw <;>
      rcases xp with _ | root <;>
      rcases cfl with _ | _ | (lc | _) <;>
      simp_all [phase1, tryCustomSrc, tryWorkspaceSrc, tryExtCache, tryCacheSrc]
  · simp [phase1] at h

theorem phase2_res (e : Env) :
    (phase2 e).res = Json.arr (fetchMaterialIcons e.codepoints) := rfl

theorem phase2_fetches (e : Env) : (phase2 e).fetches = 1 := rfl

theorem phase2_codepoints (e : Env) :
    (phase2 e).env.codepoints = e.codepoints := by
  rcases e with ⟨mc, cf, wr, wf, xp, cfl, cp⟩
  rcases xp with _ | root
  · rfl
  · by_cases hA : (fetchMaterialIcons cp).isEmpty <;> simp [phase2, hA]

theorem racePair_inr (e : Env) (hs : phase1 e = Sum.inr e) :
    racePair e = (phase2 e, phase2 (phase2 e).env) := by
  unfold racePair
  rw [hs]

/-- C10 (amended): only the completed result is memoized, never the
in-flight task.  When two `loadIcons` calls race before the first
resolution completes (the first call suspends at the remote fetch, which
is the only suspension point, so the second call's synchronous prefix runs
against the untouched environment), each performs its own remote fetch —
two underlying fetches, not one — though both observe the same final
value in a deterministic environment. -/
theorem c10_race (e e' : Env) (hs : phase1 e = Sum.inr e') :
    (racePair e).1.res = (racePair e).2.res
    ∧ (racePair e).1.fetches + (racePair e).2.fetches = 2 := by
  have he : e' = e := phase1_inr e e' hs
  rw [he] at hs
  rw [racePair_inr e hs]
  constructor
  · rw [phase2_res, phase2_res, phase2_codepoints]
  · rw [phase2_fetches, phase2_fetches]

/-- C10 counterexample: two racing `loadIcons` calls in a concrete
environment that resolves remotely perform two underlying fetch
operations, refuting "exactly one underlying fetch/read operation". -/
theorem c10_counterexample :
    (racePair envC10).1.fetches + (racePair envC10).2.fetches = 2
    ∧ ¬((racePair envC10).1.fetches + (racePair envC10).2.fetches = 1) := by
  decide

/-- C10 witness: the same race in the concrete environment, via the
amended theorem. -/
theorem c10_witness :
    (racePair envC10).1.res = (racePair envC10).2.res
    ∧ (racePair envC10).1.fetches + (racePair envC10).2.fetches = 2 :=
  c10_race envC10 envC10 (by rfl)

end MatIcons
